import Mathlib

/-!
Shallow embedding of the sync engine and cue point editor of the
YouTube cue point editor repository:
  - src/frontend/src/hooks/useVideoSync.js (drift monitor, correction controller)
  - src/frontend/src/hooks/useCueKeyboardMap.js (key dispatch)
  - src/frontend/src/components/CuePointEditor.jsx (cue registry, persistence)
Times (audio clock seconds and performance.now milliseconds) are modelled as
rationals; JavaScript falsiness of the number 0 and of the empty string is
modelled explicitly where the source relies on it.
-/

set_option maxRecDepth 8000

namespace CueEditor

/-- Drift statistics kept in statsRef of useVideoSync.js. -/
structure SyncStats where
  corrections : ℕ
  maxDrift : ℚ
  avgDrift : ℚ
  driftHistory : List ℚ
deriving DecidableEq, Repr

/-- The follower video element: readable/assignable currentTime and a
duration (0 models a falsy duration, as in the expression
video.duration || expectedTime). -/
structure VideoState where
  currentTime : ℚ
  duration : ℚ
deriving DecidableEq, Repr

/-- The mutable state of the sync engine held in refs by useVideoSync.js.
audioStartTime = none models a null startTime (no session). -/
structure SyncState where
  video : VideoState
  audioStartTime : Option ℚ
  cueOffset : ℚ
  ctxCurrentTime : ℚ
  lastCorrectionTime : ℚ
  stats : SyncStats
deriving DecidableEq, Repr

/-- CORRECTION_THROTTLE_MS from useVideoSync.js line 48. -/
def CORRECTION_THROTTLE_MS : ℚ := 100

/-- Default driftThreshold parameter of useVideoSync (0.05 s). -/
def defaultDriftThreshold : ℚ := 1 / 20

/-- The 0.01 s minimum-seek-distance constant of useVideoSync.js line 128. -/
def correctionEpsilon : ℚ := 1 / 100

/-- calculateExpectedVideoTime of useVideoSync.js lines 51-62:
returns 0 when startTime is null, otherwise
max 0 (offset + (ctx.currentTime - startTime)). -/
def calculateExpectedVideoTime (s : SyncState) : ℚ :=
  match s.audioStartTime with
  | none => 0
  | some startTime => max 0 (s.cueOffset + (s.ctxCurrentTime - startTime))

/-- calculateDrift of useVideoSync.js lines 65-84: computes
drift = actual - expected, pushes the absolute drift to the history,
evicts the oldest sample beyond capacity 100, updates the running maximum
and the average of the stored history.  Returns the drift together with
the updated statistics. -/
def calculateDrift (s : SyncState) : ℚ × SyncStats :=
  let expectedTime := calculateExpectedVideoTime s
  let actualTime := s.video.currentTime
  let drift := actualTime - expectedTime
  let hist1 := s.stats.driftHistory ++ [|drift|]
  let hist2 := if hist1.length > 100 then hist1.drop 1 else hist1
  let maxD := max s.stats.maxDrift |drift|
  let avgD := hist2.sum / (hist2.length : ℚ)
  (drift,
    { corrections := s.stats.corrections
      maxDrift := maxD
      avgDrift := avgD
      driftHistory := hist2 })

/-- The correctedTime expression of useVideoSync.js line 126:
Math.min(expectedTime, video.duration || expectedTime), where a duration
of 0 models a falsy duration. -/
def correctedTarget (s : SyncState) : ℚ :=
  min (calculateExpectedVideoTime s)
    (if s.video.duration = 0 then calculateExpectedVideoTime s
     else s.video.duration)

/-- statsRef.current.corrections++ of useVideoSync.js line 137. -/
def bumpCorrections (st : SyncStats) : SyncStats :=
  { st with corrections := st.corrections + 1 }

/-- correctVideoTime of useVideoSync.js lines 87-149: throttles corrections
to one per CORRECTION_THROTTLE_MS, then samples the drift (which updates the
drift statistics), and if it exceeds the threshold seeks the video to the
corrected target, provided the destination is nonnegative and more than
0.01 s away from the current position.  Returns whether a correction was
applied and the new state. -/
def correctVideoTime (driftThreshold : ℚ) (nowMs : ℚ) (s : SyncState) :
    Bool × SyncState :=
  if nowMs - s.lastCorrectionTime < CORRECTION_THROTTLE_MS then
    (false, s)
  else
    if |(calculateDrift s).1| > driftThreshold then
      if 0 ≤ correctedTarget s ∧
          |correctedTarget s - s.video.currentTime| > correctionEpsilon then
        (true,
          { video := { currentTime := correctedTarget s
                       duration := s.video.duration }
            audioStartTime := s.audioStartTime
            cueOffset := s.cueOffset
            ctxCurrentTime := s.ctxCurrentTime
            lastCorrectionTime := nowMs
            stats := bumpCorrections (calculateDrift s).2 })
      else (false, { s with stats := (calculateDrift s).2 })
    else (false, { s with stats := (calculateDrift s).2 })

/-- forceSync of useVideoSync.js lines 214-224: with video and context
present it simply invokes correctVideoTime. -/
def forceSync (driftThreshold : ℚ) (nowMs : ℚ) (s : SyncState) :
    Bool × SyncState :=
  correctVideoTime driftThreshold nowMs s

/-- C1: for every origin, offset and now, the expected follower position
equals max 0 (offset + (now - origin)); it is non-decreasing in now for
fixed origin/offset, and always nonnegative. -/
theorem expectedFollowerPosition_spec (s : SyncState) (origin now later : ℚ)
    (h : s.audioStartTime = some origin) :
    calculateExpectedVideoTime { s with ctxCurrentTime := now } =
      max 0 (s.cueOffset + (now - origin)) ∧
    (now ≤ later →
      calculateExpectedVideoTime { s with ctxCurrentTime := now } ≤
        calculateExpectedVideoTime { s with ctxCurrentTime := later }) ∧
    0 ≤ calculateExpectedVideoTime { s with ctxCurrentTime := now } := by
  refine ⟨?_, ?_, ?_⟩
  · simp [calculateExpectedVideoTime, h]
  · intro hle
    simp only [calculateExpectedVideoTime, h]
    exact max_le_max le_rfl (by linarith)
  · simp only [calculateExpectedVideoTime, h]
    exact le_max_left 0 _

/-- Witness for C1 at origin = 5, offset = 10, now = 11.5, later = 12:
the expected position at now is 11.5 and the monotonicity and
nonnegativity conclusions hold there. -/
theorem expectedFollowerPosition_spec_witness :
    calculateExpectedVideoTime
        { video := { currentTime := 5, duration := 120 }
          audioStartTime := some 5
          cueOffset := 10
          ctxCurrentTime := 23 / 2
          lastCorrectionTime := 0
          stats := { corrections := 0, maxDrift := 0, avgDrift := 0,
                     driftHistory := [] } } =
      max 0 (10 + (23 / 2 - 5)) ∧
    (23 / 2 ≤ (12 : ℚ) →
      calculateExpectedVideoTime
          { video := { currentTime := 5, duration := 120 }
            audioStartTime := some 5
            cueOffset := 10
            ctxCurrentTime := 23 / 2
            lastCorrectionTime := 0
            stats := { corrections := 0, maxDrift := 0, avgDrift := 0,
                       driftHistory := [] } } ≤
        calculateExpectedVideoTime
          { video := { currentTime := 5, duration := 120 }
            audioStartTime := some 5
            cueOffset := 10
            ctxCurrentTime := 12
            lastCorrectionTime := 0
            stats := { corrections := 0, maxDrift := 0, avgDrift := 0,
                       driftHistory := [] } }) ∧
    0 ≤ calculateExpectedVideoTime
        { video := { currentTime := 5, duration := 120 }
          audioStartTime := some 5
          cueOffset := 10
          ctxCurrentTime := 23 / 2
          lastCorrectionTime := 0
          stats := { corrections := 0, maxDrift := 0, avgDrift := 0,
                     driftHistory := [] } } :=
  expectedFollowerPosition_spec
    { video := { currentTime := 5, duration := 120 }
      audioStartTime := some 5
      cueOffset := 10
      ctxCurrentTime := 23 / 2
      lastCorrectionTime := 0
      stats := { corrections := 0, maxDrift := 0, avgDrift := 0,
                 driftHistory := [] } }
    5 (23 / 2) 12 rfl

/-- The expected follower position is never negative. -/
lemma calculateExpectedVideoTime_nonneg (s : SyncState) :
    0 ≤ calculateExpectedVideoTime s := by
  unfold calculateExpectedVideoTime
  cases s.audioStartTime with
  | none => exact le_refl 0
  | some t => exact le_max_left 0 _

/-- Elimination lemma: whenever correctVideoTime reports an applied
correction, the throttle window had elapsed, the drift exceeded the
threshold, and the resulting state is the seek to
min expected (duration or expected) with lastCorrectionTime set to now. -/
lemma correctVideoTime_true_elim (th nowMs : ℚ) (s : SyncState)
    (h : (correctVideoTime th nowMs s).1 = true) :
    ¬ nowMs - s.lastCorrectionTime < CORRECTION_THROTTLE_MS ∧
    |(calculateDrift s).1| > th ∧
    0 ≤ correctedTarget s ∧
    (correctVideoTime th nowMs s).2.video.currentTime = correctedTarget s ∧
    (correctVideoTime th nowMs s).2.video.duration = s.video.duration ∧
    (correctVideoTime th nowMs s).2.lastCorrectionTime = nowMs ∧
    (correctVideoTime th nowMs s).2.stats.corrections =
      (calculateDrift s).2.corrections + 1 := by
  revert h
  unfold correctVideoTime
  split_ifs with h1 h2 h3
  · intro h; simp at h
  · intro _
    exact ⟨h1, h2, h3.1, rfl, rfl, rfl, rfl⟩
  · intro h; simp at h
  · intro h; simp at h

/-- Fresh statistics, as reset by startSync (useVideoSync.js lines 187-192). -/
def emptyStats : SyncStats :=
  { corrections := 0, maxDrift := 0, avgDrift := 0, driftHistory := [] }

/-- State just after a cue jump (offset 50, origin = now) with the video
still at 10 s, where the last applied correction was 40 ms ago. -/
def jumpThrottleState : SyncState :=
  { video := { currentTime := 10, duration := 120 }
    audioStartTime := some 0
    cueOffset := 50
    ctxCurrentTime := 0
    lastCorrectionTime := 960
    stats := emptyStats }

/-- State whose expected position 165 exceeds the video duration 120 while
the video sits at 150 s (scenario C of the specification). -/
def clampState : SyncState :=
  { video := { currentTime := 150, duration := 120 }
    audioStartTime := some 0
    cueOffset := 165
    ctxCurrentTime := 0
    lastCorrectionTime := 0
    stats := emptyStats }

/-- State with a large drift whose expected position 33/2 lies inside the
video duration. -/
def inRangeState : SyncState :=
  { video := { currentTime := 5, duration := 120 }
    audioStartTime := some 5
    cueOffset := 10
    ctxCurrentTime := 23 / 2
    lastCorrectionTime := 0
    stats := emptyStats }

/-- C2 counterexample: on a cue jump 40 ms after the last applied
correction, the forced sync pass is suppressed by the throttle even though
the drift (-40 s) far exceeds the threshold, so the jump correction is in
fact subject to the throttle interval. -/
theorem forceSync_throttled_on_jump :
    defaultDriftThreshold < |(calculateDrift jumpThrottleState).1| ∧
    1000 - jumpThrottleState.lastCorrectionTime < CORRECTION_THROTTLE_MS ∧
    forceSync defaultDriftThreshold 1000 jumpThrottleState =
      (false, jumpThrottleState) := by
  with_unfolding_all decide

/-- C2 (amended): the cue-change effect invokes forceSync, which performs
exactly one correctVideoTime pass; that pass is subject to the ordinary
correction throttle, so within CORRECTION_THROTTLE_MS of the last applied
correction it is suppressed as a no-op. -/
theorem forceSync_subject_to_throttle (th nowMs : ℚ) (s : SyncState) :
    forceSync th nowMs s = correctVideoTime th nowMs s ∧
    (nowMs - s.lastCorrectionTime < CORRECTION_THROTTLE_MS →
      forceSync th nowMs s = (false, s)) := by
  refine ⟨rfl, fun h => ?_⟩
  unfold forceSync correctVideoTime
  rw [if_pos h]

/-- Witness for C2 (amended) at the jump state 40 ms after a correction. -/
theorem forceSync_subject_to_throttle_witness :
    forceSync defaultDriftThreshold 1000 jumpThrottleState =
      (false, jumpThrottleState) :=
  (forceSync_subject_to_throttle defaultDriftThreshold 1000
      jumpThrottleState).2 (by with_unfolding_all decide)

/-- C3 counterexample: at the clamping state a correction is issued, yet
the new position 120 differs from the expected position 165 by 45 s, far
more than the 0.01 s epsilon. -/
theorem correction_epsilon_counterexample :
    (correctVideoTime defaultDriftThreshold 1000 clampState).1 = true ∧
    |(correctVideoTime defaultDriftThreshold 1000
        clampState).2.video.currentTime -
      calculateExpectedVideoTime clampState| > correctionEpsilon := by
  with_unfolding_all decide

/-- C3 (amended): every issued correction seeks exactly to
min expected (duration or expected); whenever the expected position does
not exceed the video duration (or the duration is unavailable) the new
position is the expected position itself, so |new - expected| ≤ 0.01. -/
theorem correction_close_to_expected (th nowMs : ℚ) (s : SyncState)
    (h : (correctVideoTime th nowMs s).1 = true) :
    (correctVideoTime th nowMs s).2.video.currentTime = correctedTarget s ∧
    (calculateExpectedVideoTime s ≤ s.video.duration ∨
        s.video.duration = 0 →
      |(correctVideoTime th nowMs s).2.video.currentTime -
        calculateExpectedVideoTime s| ≤ correctionEpsilon) := by
  obtain ⟨-, -, -, hcur, -, -, -⟩ := correctVideoTime_true_elim th nowMs s h
  refine ⟨hcur, fun hd => ?_⟩
  rw [hcur]
  have htgt : correctedTarget s = calculateExpectedVideoTime s := by
    unfold correctedTarget
    rcases eq_or_ne s.video.duration 0 with h0 | h0
    · rw [if_pos h0, min_self]
    · rcases hd with hle | h0x
      · rw [if_neg h0, min_eq_left hle]
      · exact absurd h0x h0
  rw [htgt, sub_self, abs_zero]
  norm_num [correctionEpsilon]

/-- Witness for C3 (amended) at a state whose expected position lies inside
the duration: the correction seeks exactly to the expected position. -/
theorem correction_close_to_expected_witness :
    (correctVideoTime defaultDriftThreshold 1000
        inRangeState).2.video.currentTime = correctedTarget inRangeState ∧
    |(correctVideoTime defaultDriftThreshold 1000
        inRangeState).2.video.currentTime -
      calculateExpectedVideoTime inRangeState| ≤ correctionEpsilon :=
  ⟨(correction_close_to_expected defaultDriftThreshold 1000 inRangeState
      (by with_unfolding_all decide)).1,
   (correction_close_to_expected defaultDriftThreshold 1000 inRangeState
      (by with_unfolding_all decide)).2 (Or.inl (by with_unfolding_all decide))⟩

/-- C4: with a positive video duration, every issued correction seeks to a
position within [0, duration]. -/
theorem correction_within_duration (th nowMs : ℚ) (s : SyncState)
    (hd : 0 < s.video.duration)
    (h : (correctVideoTime th nowMs s).1 = true) :
    0 ≤ (correctVideoTime th nowMs s).2.video.currentTime ∧
    (correctVideoTime th nowMs s).2.video.currentTime ≤
      s.video.duration := by
  obtain ⟨-, -, hpos, hcur, -, -, -⟩ := correctVideoTime_true_elim th nowMs s h
  rw [hcur]
  refine ⟨hpos, ?_⟩
  unfold correctedTarget
  rw [if_neg (ne_of_gt hd)]
  exact min_le_right _ _

/-- Witness for C4 at scenario C: duration 120, expected position 165, an
issued correction lands inside [0, 120], namely exactly at 120. -/
theorem correction_within_duration_witness :
    (0 ≤ (correctVideoTime defaultDriftThreshold 1000
        clampState).2.video.currentTime ∧
      (correctVideoTime defaultDriftThreshold 1000
        clampState).2.video.currentTime ≤ clampState.video.duration) ∧
    calculateExpectedVideoTime clampState = 165 ∧
    (correctVideoTime defaultDriftThreshold 1000
        clampState).2.video.currentTime = 120 :=
  ⟨correction_within_duration defaultDriftThreshold 1000 clampState
      (by with_unfolding_all decide) (by with_unfolding_all decide),
   by with_unfolding_all decide, by with_unfolding_all decide⟩

/-- C5: after an applied correction at wall-clock time t1, a second
correction pass strictly less than the throttle interval later is
suppressed: it applies no correction and leaves the state untouched. -/
theorem correction_throttle_interval (th t1 t2 : ℚ) (s : SyncState)
    (h1 : (correctVideoTime th t1 s).1 = true)
    (h2 : t2 - t1 < CORRECTION_THROTTLE_MS) :
    correctVideoTime th t2 ((correctVideoTime th t1 s).2) =
      (false, (correctVideoTime th t1 s).2) := by
  obtain ⟨-, -, -, -, -, hlast, -⟩ := correctVideoTime_true_elim th t1 s h1
  have hgen : ∀ s2 : SyncState, s2.lastCorrectionTime = t1 →
      correctVideoTime th t2 s2 = (false, s2) := by
    intro s2 hl
    unfold correctVideoTime
    rw [hl, if_pos h2]
  exact hgen _ hlast

/-- Witness for C5: two correction-worthy passes 40 ms apart; the first
applies, the second is a no-op. -/
theorem correction_throttle_interval_witness :
    correctVideoTime defaultDriftThreshold 1040
        ((correctVideoTime defaultDriftThreshold 1000 inRangeState).2) =
      (false, (correctVideoTime defaultDriftThreshold 1000
        inRangeState).2) :=
  correction_throttle_interval defaultDriftThreshold 1000 1040 inRangeState
    (by with_unfolding_all decide) (by with_unfolding_all decide)

/-- Drift-monitor run harness: performs one calculateDrift tick per entry of
the list, the follower video sitting at the given position when the tick
fires (the sync parameters themselves do not change between ticks). -/
def runDriftTicks (s : SyncState) (positions : List ℚ) : SyncState :=
  positions.foldl
    (fun st p =>
      { st with
        video := { st.video with currentTime := p }
        stats := (calculateDrift { st with
          video := { st.video with currentTime := p } }).2 })
    s

/-- A playing session whose expected position is 0 at every tick
(origin = now = 0, offset = 0), with freshly reset statistics. -/
def driftRunState : SyncState :=
  { video := { currentTime := 0, duration := 120 }
    audioStartTime := some 0
    cueOffset := 0
    ctxCurrentTime := 0
    lastCorrectionTime := 0
    stats := emptyStats }

/-- C6 counterexample: after 101 ticks (one drift of 10 followed by 100
drifts of 1) the bounded history holds exactly 100 samples all equal to 1,
whose maximum is 1, yet maxDrift is still 10: maxDrift is a running maximum
since reset, not the maximum of the currently stored samples. -/
theorem driftStats_max_counterexample :
    (runDriftTicks driftRunState (10 :: List.replicate 100 1)).stats.driftHistory =
      List.replicate 100 1 ∧
    (runDriftTicks driftRunState
        (10 :: List.replicate 100 1)).stats.driftHistory.foldr max 0 = 1 ∧
    (runDriftTicks driftRunState (10 :: List.replicate 100 1)).stats.maxDrift = 10 ∧
    (runDriftTicks driftRunState (10 :: List.replicate 100 1)).stats.maxDrift ≠
      (runDriftTicks driftRunState
        (10 :: List.replicate 100 1)).stats.driftHistory.foldr max 0 ∧
    (runDriftTicks driftRunState (10 :: List.replicate 100 1)).stats.avgDrift = 1 := by
  with_unfolding_all decide

/-- C6 (amended): each drift-monitor tick keeps the history at no more than
100 samples (evicting the oldest beyond capacity), sets avgDrift to the
average of the stored samples, and sets maxDrift to the running maximum of
the previous maxDrift and the new absolute drift, which bounds every stored
sample from above without necessarily equalling their maximum. -/
theorem driftStats_after_tick (s : SyncState)
    (hlen : s.stats.driftHistory.length ≤ 100)
    (hmax : ∀ x ∈ s.stats.driftHistory, x ≤ s.stats.maxDrift) :
    (calculateDrift s).2.driftHistory.length ≤ 100 ∧
    (calculateDrift s).2.avgDrift =
      (calculateDrift s).2.driftHistory.sum /
        ((calculateDrift s).2.driftHistory.length : ℚ) ∧
    (calculateDrift s).2.maxDrift =
      max s.stats.maxDrift |(calculateDrift s).1| ∧
    ∀ x ∈ (calculateDrift s).2.driftHistory,
      x ≤ (calculateDrift s).2.maxDrift := by
  unfold calculateDrift
  by_cases hc :
      (s.stats.driftHistory ++
        [|s.video.currentTime - calculateExpectedVideoTime s|]).length > 100
  · simp only [hc, if_pos]
    refine ⟨?_, trivial, trivial, ?_⟩
    · rw [List.length_drop, List.length_append]
      simp
      omega
    · intro x hx
      have hx1 := List.mem_of_mem_drop hx
      rcases List.mem_append.mp hx1 with hxl | hxr
      · exact le_max_of_le_left (hmax x hxl)
      · rw [List.mem_singleton.mp hxr]
        exact le_max_right _ _
  · simp only [hc, if_neg, if_false]
    refine ⟨?_, trivial, trivial, ?_⟩
    · omega
    · intro x hx
      rcases List.mem_append.mp hx with hxl | hxr
      · exact le_max_of_le_left (hmax x hxl)
      · rw [List.mem_singleton.mp hxr]
        exact le_max_right _ _

/-- Witness for C6 (amended) at a fresh session: one tick from empty
statistics satisfies the bound, the average equation, the running-maximum
equation and the upper-bound property. -/
theorem driftStats_after_tick_witness :
    (calculateDrift driftRunState).2.driftHistory.length ≤ 100 ∧
    (calculateDrift driftRunState).2.avgDrift =
      (calculateDrift driftRunState).2.driftHistory.sum /
        ((calculateDrift driftRunState).2.driftHistory.length : ℚ) ∧
    (calculateDrift driftRunState).2.maxDrift =
      max driftRunState.stats.maxDrift |(calculateDrift driftRunState).1| ∧
    ∀ x ∈ (calculateDrift driftRunState).2.driftHistory,
      x ≤ (calculateDrift driftRunState).2.maxDrift :=
  driftStats_after_tick driftRunState (by decide)
    (by simp [driftRunState, emptyStats])

/-- A cue point record as created and persisted by CuePointEditor.jsx.
A missing key is modelled by the empty string (falsy in the source). -/
structure Cue where
  time : ℚ
  label : String
  key : String
  sample_rate : ℚ
  sample_position : ℤ
deriving DecidableEq, Repr, Inhabited

/-- calculateSamplePosition of CuePointEditor.jsx lines 48-50:
Math.round(time * sampleRate). -/
def calculateSamplePosition (sampleRate : ℚ) (time : ℚ) : ℤ :=
  round (time * sampleRate)

/-- The comparison (a, b) => a.time - b.time used by every sort call in
CuePointEditor.jsx: ascending by cue time. -/
def cueTimeLe (a b : Cue) : Prop := a.time ≤ b.time

instance : DecidableRel cueTimeLe := fun a b =>
  inferInstanceAs (Decidable (a.time ≤ b.time))

instance : IsTotal Cue cueTimeLe := ⟨fun a b => le_total a.time b.time⟩

instance : IsTrans Cue cueTimeLe := ⟨fun _ _ _ hab hbc => le_trans hab hbc⟩

/-- updatedCues.sort((a, b) => a.time - b.time): a stable sort ascending by
time, modelled by insertion sort (stable and sorted, the two properties the
ECMAScript specification guarantees for Array.prototype.sort). -/
def sortCuesByTime (cues : List Cue) : List Cue :=
  cues.insertionSort cueTimeLe

/-- The validation errors object of validateCue (CuePointEditor.jsx lines
72-98); each flag records whether the corresponding error key is present. -/
structure CueErrors where
  timeErr : Bool
  labelErr : Bool
  keyErr : Bool
deriving DecidableEq, Repr

/-- Object.keys(errors).length == 0 is false, i.e. some error is present. -/
def CueErrors.hasErrors (e : CueErrors) : Bool :=
  e.timeErr || e.labelErr || e.keyErr

/-- validateCue of CuePointEditor.jsx lines 72-98: time must lie in
[0, audioDuration], the label must be non-blank, and a non-empty key must
not be used (with case-sensitive equality) by any other cue. -/
def validateCue (audioDuration : ℚ) (cuePoints : List Cue) (cue : Cue)
    (index : ℕ) : CueErrors :=
  { timeErr := decide (cue.time < 0 ∨ audioDuration < cue.time)
    labelErr := decide (cue.label.trim = "")
    keyErr := decide (cue.key ≠ "") &&
      cuePoints.enum.any (fun p =>
        decide (p.1 ≠ index) && decide (p.2.key = cue.key)) }

/-- A single-field update passed to updateCue; the time branch carries the
numeric value produced by parseTime. -/
inductive CueFieldUpdate where
  | time (t : ℚ)
  | label (s : String)
  | key (s : String)
deriving DecidableEq, Repr

/-- The field assignment of updateCue (CuePointEditor.jsx lines 120-126):
a time update also recomputes sample_position. -/
def applyField (sampleRate : ℚ) (cue : Cue) : CueFieldUpdate → Cue
  | .time t =>
      { cue with time := t
                 sample_position := calculateSamplePosition sampleRate t }
  | .label s => { cue with label := s }
  | .key s => { cue with key := s }

/-- The modified record built by updateCue before validation: the indexed
cue with the field assignment applied. -/
def modifiedCue (sampleRate : ℚ) (cuePoints : List Cue) (index : ℕ)
    (upd : CueFieldUpdate) : Cue :=
  applyField sampleRate (cuePoints.getD index default) upd

/-- updateCue of CuePointEditor.jsx lines 116-145: applies the field change
to the indexed cue, validates the modified record, and commits (re-sorting
when the time changed) only when validation reported no errors; otherwise
the registry is left as it was.  Returns the committed registry and the
reported errors. -/
def updateCue (audioDuration sampleRate : ℚ) (cuePoints : List Cue)
    (index : ℕ) (upd : CueFieldUpdate) : List Cue × CueErrors :=
  if (validateCue audioDuration cuePoints
      (modifiedCue sampleRate cuePoints index upd) index).hasErrors then
    (cuePoints,
     validateCue audioDuration cuePoints
       (modifiedCue sampleRate cuePoints index upd) index)
  else
    match upd with
    | .time _ =>
        (sortCuesByTime
          (cuePoints.set index (modifiedCue sampleRate cuePoints index upd)),
         validateCue audioDuration cuePoints
           (modifiedCue sampleRate cuePoints index upd) index)
    | _ =>
        (cuePoints.set index (modifiedCue sampleRate cuePoints index upd),
         validateCue audioDuration cuePoints
           (modifiedCue sampleRate cuePoints index upd) index)

/-- C7: updateCue leaves the registry unchanged (reporting the errors)
whenever the modified record fails validation, and commits a registry
sorted ascending by time whenever validation succeeds on a time change. -/
theorem updateCue_spec (audioDuration sampleRate : ℚ) (cuePoints : List Cue)
    (index : ℕ) (upd : CueFieldUpdate) :
    (updateCue audioDuration sampleRate cuePoints index upd).2 =
      validateCue audioDuration cuePoints
        (modifiedCue sampleRate cuePoints index upd) index ∧
    ((updateCue audioDuration sampleRate cuePoints index upd).2.hasErrors =
        true →
      (updateCue audioDuration sampleRate cuePoints index upd).1 =
        cuePoints) ∧
    (∀ t : ℚ,
      (updateCue audioDuration sampleRate cuePoints index upd).2.hasErrors =
        false →
      upd = CueFieldUpdate.time t →
      List.Sorted cueTimeLe
        (updateCue audioDuration sampleRate cuePoints index upd).1) := by
  unfold updateCue
  split_ifs with h
  · exact ⟨rfl, fun _ => rfl, fun t hfalse _ => by simp [h] at hfalse⟩
  · refine ⟨?_, ?_, ?_⟩
    · cases upd <;> rfl
    · intro htrue
      cases upd <;> simp_all
    · intro t _ hupd
      subst hupd
      exact List.sorted_insertionSort cueTimeLe _

/-- A concrete registry of two cues sorted by time. -/
def sampleCues : List Cue :=
  [ { time := 10, label := "Intro", key := "1", sample_rate := 10
      sample_position := 100 }
  , { time := 20, label := "Drop", key := "2", sample_rate := 10
      sample_position := 200 } ]

/-- Witness for C7: moving the first cue's time to 30 succeeds and commits
the re-sorted registry; the reported errors equal the validation result. -/
theorem updateCue_spec_witness :
    (updateCue 100 10 sampleCues 0 (CueFieldUpdate.time 30)).2 =
      validateCue 100 sampleCues
        (modifiedCue 10 sampleCues 0 (CueFieldUpdate.time 30)) 0 ∧
    List.Sorted cueTimeLe
      (updateCue 100 10 sampleCues 0 (CueFieldUpdate.time 30)).1 ∧
    (updateCue 100 10 sampleCues 0 (CueFieldUpdate.time 30)).1.map
        Cue.time = [20, 30] :=
  ⟨(updateCue_spec 100 10 sampleCues 0 (CueFieldUpdate.time 30)).1,
   (updateCue_spec 100 10 sampleCues 0 (CueFieldUpdate.time 30)).2.2 30
     (by with_unfolding_all decide) rfl,
   by with_unfolding_all decide⟩

/-- saveCuesToJSON of CuePointEditor.jsx lines 160-170: the exported JSON
document is JSON.stringify of the cue array itself, so the persisted list
of records is exactly the registry (JSON round-trips the numeric and
string fields exactly). -/
def saveCuesToJSON (cuePoints : List Cue) : List Cue :=
  cuePoints

/-- The per-element normalisation of loadCuesFromJSON (CuePointEditor.jsx
lines 188-200): keep time and label, default a falsy key to the empty
string, default a falsy sample_rate to the component sampleRate, and
recompute a falsy sample_position from the time at the component
sampleRate. -/
def normalizeLoadedCue (sampleRate : ℚ) (c : Cue) : Cue :=
  { time := c.time
    label := c.label
    key := if c.key = "" then "" else c.key
    sample_rate := if c.sample_rate = 0 then sampleRate else c.sample_rate
    sample_position :=
      if c.sample_position = 0 then calculateSamplePosition sampleRate c.time
      else c.sample_position }

/-- loadCuesFromJSON of CuePointEditor.jsx lines 173-219: any element with
a falsy label aborts the whole import (none, registry untouched);
otherwise every element is normalised, the list is sorted by time and
committed. -/
def loadCuesFromJSON (sampleRate : ℚ) (loadedCues : List Cue) :
    Option (List Cue) :=
  if loadedCues.any (fun c => decide (c.label = "")) then none
  else some (sortCuesByTime (loadedCues.map (normalizeLoadedCue sampleRate)))

/-- A cue as produced by the editor itself: non-empty label, the
component's nonzero sample rate, and a sample position derived from the
time. -/
def GoodCue (sampleRate : ℚ) (c : Cue) : Prop :=
  c.label ≠ "" ∧ c.sample_rate ≠ 0 ∧
  (c.sample_position = 0 → calculateSamplePosition sampleRate c.time = 0)

instance (sampleRate : ℚ) (c : Cue) : Decidable (GoodCue sampleRate c) := by
  unfold GoodCue
  infer_instance

/-- Normalising a good cue is the identity. -/
lemma normalizeLoadedCue_eq_self (sampleRate : ℚ) (c : Cue)
    (h : GoodCue sampleRate c) : normalizeLoadedCue sampleRate c = c := by
  obtain ⟨hlabel, hrate, hpos⟩ := h
  unfold normalizeLoadedCue
  cases c with
  | mk t l k sr sp =>
    simp only [Cue.mk.injEq]
    refine ⟨trivial, trivial, ?_, ?_, ?_⟩
    · split_ifs with hk
      · exact hk.symm
      · rfl
    · exact if_neg hrate
    · split_ifs with hsp
      · exact (hpos hsp).trans hsp.symm
      · rfl

/-- Mapping a function that fixes every element of a list is the
identity. -/
lemma map_eq_self_of_forall {α : Type} (f : α → α) :
    ∀ l : List α, (∀ c ∈ l, f c = c) → l.map f = l
  | [], _ => rfl
  | a :: l, h => by
      rw [List.map_cons, h a (List.mem_cons_self a l),
        map_eq_self_of_forall f l (fun c hc => h c (List.mem_cons_of_mem a hc))]

/-- C9: for every previously valid, sorted cue array, importing the
exported JSON reproduces the same ordered array, element for element. -/
theorem serialize_roundtrip (sampleRate : ℚ) (X : List Cue)
    (hgood : ∀ c ∈ X, GoodCue sampleRate c)
    (hsorted : List.Sorted cueTimeLe X) :
    loadCuesFromJSON sampleRate (saveCuesToJSON X) = some X := by
  unfold saveCuesToJSON loadCuesFromJSON
  have hany : X.any (fun c => decide (c.label = "")) = false := by
    rw [List.any_eq_false]
    intro c hc
    simpa using (hgood c hc).1
  rw [if_neg (by simp [hany])]
  rw [map_eq_self_of_forall _ X
    (fun c hc => normalizeLoadedCue_eq_self sampleRate c (hgood c hc))]
  rw [sortCuesByTime, hsorted.insertionSort_eq]

/-- Witness for C9 at the two-cue sample registry: the import of the
export is the registry itself. -/
theorem serialize_roundtrip_witness :
    loadCuesFromJSON 10 (saveCuesToJSON sampleCues) = some sampleCues :=
  serialize_roundtrip 10 sampleCues (by with_unfolding_all decide)
    (by with_unfolding_all decide)

/-- A keyboard event as inspected by useCueKeyboardMap.js: the key string,
the four modifier flags, the lowercased-comparable tag name of the event
target, and its contenteditable flag. -/
structure KeyEvent where
  key : String
  ctrlKey : Bool
  altKey : Bool
  metaKey : Bool
  shiftKey : Bool
  targetTag : String
  isContentEditable : Bool
deriving DecidableEq, Repr

/-- The debounceMs default of useCueKeyboardMap.js line 18. -/
def defaultDebounceMs : ℚ := 100

/-- The excludeTargets default of useCueKeyboardMap.js line 19. -/
def defaultExcludeTargets : List String := ["input", "textarea", "select"]

/-- shouldIgnoreEvent of useCueKeyboardMap.js lines 51-66: the early
returns ignore a disabled hook, ctrl/alt/meta modifiers (shift is
deliberately exempt), excluded target tags, and contenteditable targets. -/
def shouldIgnoreEvent (enabled : Bool) (excludeTargets : List String)
    (e : KeyEvent) : Bool :=
  !enabled || (e.ctrlKey || e.altKey || e.metaKey) ||
    excludeTargets.contains e.targetTag.toLower || e.isContentEditable

/-- buildKeyMap of useCueKeyboardMap.js lines 30-48: lowercases each
non-empty cue key and registers the cue (with its index) under it, keeping
the first registration on a collision. -/
def buildKeyMap (cuePoints : List Cue) : List (String × (Cue × ℕ)) :=
  cuePoints.enum.foldl
    (fun keyMap p =>
      if p.2.key ≠ "" then
        if (keyMap.lookup p.2.key.toLower).isSome then keyMap
        else keyMap ++ [(p.2.key.toLower, (p.2, p.1))]
      else keyMap)
    []

/-- lastTriggerRef.current[key] = now of useCueKeyboardMap.js line 90:
record the trigger time for the key. -/
def setLastTrigger (m : List (String × ℚ)) (k : String) (v : ℚ) :
    List (String × ℚ) :=
  (k, v) :: m.filter (fun p => p.1 ≠ k)

/-- handleKeyPress of useCueKeyboardMap.js lines 69-104: drops ignored
events, looks the lowercased event key up in the key map, debounces a
repeat on the same key within debounceMs of its recorded (truthy) last
trigger time, and otherwise triggers the bound cue and records the trigger
time.  Returns the triggered cue, if any, and the updated last-trigger
map. -/
def handleKeyPress (enabled : Bool) (excludeTargets : List String)
    (debounceMs : ℚ) (keyMap : List (String × (Cue × ℕ)))
    (lastTriggerMap : List (String × ℚ)) (now : ℚ) (e : KeyEvent) :
    Option (Cue × ℕ) × List (String × ℚ) :=
  if shouldIgnoreEvent enabled excludeTargets e then (none, lastTriggerMap)
  else
    match keyMap.lookup e.key.toLower with
    | none => (none, lastTriggerMap)
    | some cue =>
        match lastTriggerMap.lookup e.key.toLower with
        | some lastTrigger =>
            if lastTrigger ≠ 0 ∧ now - lastTrigger < debounceMs then
              (none, lastTriggerMap)
            else (some cue, setLastTrigger lastTriggerMap e.key.toLower now)
        | none => (some cue, setLastTrigger lastTriggerMap e.key.toLower now)

/-- The first sample cue with lowercase key "a". -/
def cueKeyLower : Cue :=
  { time := 10, label := "Intro", key := "a", sample_rate := 10
    sample_position := 100 }

/-- A second cue whose key "A" differs from "a" only in letter case. -/
def cueKeyUpper : Cue :=
  { time := 20, label := "Drop", key := "A", sample_rate := 10
    sample_position := 200 }

/-- A shift-modified key event on "A" targeting the document body. -/
def shiftEvent : KeyEvent :=
  { key := "A", ctrlKey := false, altKey := false, metaKey := false
    shiftKey := true, targetTag := "BODY", isContentEditable := false }

/-- C8 counterexample: the debounce default is 100 ms, not the claimed
150 ms, and an event carrying the shift modifier key is not ignored - it
triggers the bound cue. -/
theorem keyDispatch_counterexample :
    defaultDebounceMs = 100 ∧ ¬ defaultDebounceMs = 150 ∧
    shiftEvent.shiftKey = true ∧
    (handleKeyPress true defaultExcludeTargets defaultDebounceMs
        (buildKeyMap [cueKeyLower]) [] 1000 shiftEvent).1 =
      some (cueKeyLower, 0) := by
  with_unfolding_all decide

/-- C8 (amended): key dispatch drops every event carrying ctrl, alt or
meta (shift alone is not a dropped modifier), every event targeting an
excluded or contenteditable context, and every repeat on the same key
within debounceMs (default 100 ms) of its recorded nonzero last trigger
time; any other event whose lowercased key is mapped triggers the bound
cue and records the trigger time. -/
theorem keyDispatch_spec (enabled : Bool) (excl : List String) (deb : ℚ)
    (keyMap : List (String × (Cue × ℕ))) (lt : List (String × ℚ))
    (now : ℚ) (e : KeyEvent) :
    ((e.ctrlKey || e.altKey || e.metaKey) = true →
      handleKeyPress enabled excl deb keyMap lt now e = (none, lt)) ∧
    (excl.contains e.targetTag.toLower = true →
      handleKeyPress enabled excl deb keyMap lt now e = (none, lt)) ∧
    (e.isContentEditable = true →
      handleKeyPress enabled excl deb keyMap lt now e = (none, lt)) ∧
    (∀ t : ℚ, lt.lookup e.key.toLower = some t → t ≠ 0 → now - t < deb →
      handleKeyPress enabled excl deb keyMap lt now e = (none, lt)) ∧
    (∀ c : Cue × ℕ, shouldIgnoreEvent enabled excl e = false →
      keyMap.lookup e.key.toLower = some c →
      (∀ t : ℚ, lt.lookup e.key.toLower = some t →
        t = 0 ∨ deb ≤ now - t) →
      handleKeyPress enabled excl deb keyMap lt now e =
        (some c, setLastTrigger lt e.key.toLower now)) ∧
    defaultDebounceMs = 100 := by
  refine ⟨?_, ?_, ?_, ?_, ?_, rfl⟩
  · intro hmod
    have hig : shouldIgnoreEvent enabled excl e = true := by
      unfold shouldIgnoreEvent
      rw [hmod]
      simp
    simp [handleKeyPress, hig]
  · intro htag
    have hig : shouldIgnoreEvent enabled excl e = true := by
      unfold shouldIgnoreEvent
      rw [htag]
      simp
    simp [handleKeyPress, hig]
  · intro hedit
    have hig : shouldIgnoreEvent enabled excl e = true := by
      unfold shouldIgnoreEvent
      rw [hedit]
      simp
    simp [handleKeyPress, hig]
  · intro t hlt ht0 hdeb
    unfold handleKeyPress
    split_ifs with hig
    · rfl
    · cases hk : keyMap.lookup e.key.toLower with
      | none => rfl
      | some c => simp [hlt, ht0, hdeb]
  · intro c hig hk hdeb
    unfold handleKeyPress
    rw [hig]
    simp only [Bool.false_eq_true, if_false]
    rw [hk]
    cases hlt : lt.lookup e.key.toLower with
    | none => rfl
    | some t =>
        rcases hdeb t hlt with ht0 | hge
        · simp [hlt, ht0]
        · have hcond : ¬ (t ≠ 0 ∧ now - t < deb) := by
            rintro ⟨-, hlt2⟩
            linarith
          simp only [hlt]
          rw [if_neg hcond]

/-- A plain (unmodified) keypress on "a" targeting the document body. -/
def plainEvent : KeyEvent :=
  { key := "a", ctrlKey := false, altKey := false, metaKey := false
    shiftKey := false, targetTag := "BODY", isContentEditable := false }

/-- Witness for C8 (amended): a plain keypress on a mapped key with an
expired debounce entry triggers the bound cue. -/
theorem keyDispatch_spec_witness :
    handleKeyPress true defaultExcludeTargets defaultDebounceMs
        (buildKeyMap [cueKeyLower]) [("a", 500)] 1000 plainEvent =
      (some (cueKeyLower, 0),
       setLastTrigger [("a", 500)] plainEvent.key.toLower 1000) :=
  (keyDispatch_spec true defaultExcludeTargets defaultDebounceMs
      (buildKeyMap [cueKeyLower]) [("a", 500)] 1000 plainEvent).2.2.2.2.1
    (cueKeyLower, 0)
    (by with_unfolding_all decide)
    (by with_unfolding_all decide)
    (by
      intro t ht
      have h5 : List.lookup plainEvent.key.toLower
          [(("a" : String), (500 : ℚ))] = some 500 := by
        with_unfolding_all decide
      have ht5 : t = 500 := (Option.some_inj.mp (h5.symm.trans ht)).symm
      right
      rw [ht5]
      with_unfolding_all decide)

/-- C10: key-to-cue resolution is case-insensitive: registry validation
compares keys case-sensitively and accepts both "a" and "A", yet the key
map lowercases keys so the two cues collide, the first-registered cue
wins, and a keypress producing "A" resolves to the cue bound to "a". -/
theorem keyMap_case_insensitive_collision :
    (validateCue 100 [cueKeyLower, cueKeyUpper] cueKeyUpper 1).hasErrors =
      false ∧
    (validateCue 100 [cueKeyLower, cueKeyUpper] cueKeyLower 0).hasErrors =
      false ∧
    (buildKeyMap [cueKeyLower, cueKeyUpper]).lookup "a" =
      some (cueKeyLower, 0) ∧
    (buildKeyMap [cueKeyLower, cueKeyUpper]).lookup "A" = none ∧
    (buildKeyMap [cueKeyLower, cueKeyUpper]).length = 1 ∧
    (handleKeyPress true defaultExcludeTargets defaultDebounceMs
        (buildKeyMap [cueKeyLower, cueKeyUpper]) [] 1000 shiftEvent).1 =
      some (cueKeyLower, 0) := by
  with_unfolding_all decide

end CueEditor
